import Mathlib

/-!
Shallow embedding of `src/astrid/main.py`: the HUD state store, the intent
classifier, the reply generator, the conversation log, the connection
registry with its broadcast coordinator, and the websocket message
dispatcher.  Python strings are modelled as Lean `String`/`List Char`,
Python floats holding the telemetry values as `ℚ`, `datetime` values as
abstract day/tick counters, and `random.choice` as selection by an
explicitly passed index (the random source as a parameter).
-/

namespace Astrid

/-- `str.lower()` restricted to the characters the program handles. -/
def pyLower (s : List Char) : List Char := s.map Char.toLower

/-- `str.strip()`: drop leading and trailing whitespace. -/
def pyStrip (s : List Char) : List Char :=
  ((s.dropWhile Char.isWhitespace).reverse.dropWhile Char.isWhitespace).reverse

/-- `int(x)` on a float: truncation toward zero. -/
def pyInt (q : ℚ) : ℤ := if 0 ≤ q then q.floor else -((-q).floor)

/-- The `HudState` pydantic model with its field defaults (main.py lines 28-43). -/
structure HudState where
  headline : String := "BRAM HOUSE"
  eve : String := "EVE"
  battery_pct : ℚ := 76.0
  load_w : ℚ := 1344.0
  sun_w : ℚ := 8000.0
  load_min_w : ℚ := 0.0
  load_max_w : ℚ := 5000.0
  sun_min_w : ℚ := 0.0
  sun_max_w : ℚ := 8000.0
  last_user_line : String := "HELLO ASTRID, HOW ARE MY RESERVE WATER LEVELS?"
  bot_reply_pending : Option String := none
  deriving DecidableEq, Repr

instance : Inhabited HudState := ⟨{}⟩

/-- The seven intent labels `analyze_message` can return. -/
inductive Intent where
  | greeting | status | power | battery | water | maintenance | unknown
  deriving DecidableEq, Repr

/-- One exchange stored in `conversation_history`: timestamp, user message, bot response. -/
structure ConversationEntry where
  timestamp : ℕ
  user : String
  bot : String
  deriving DecidableEq, Repr

/-- The keyword lists of `analyze_message`, in source order. -/
def greetingKws : List (List Char) := ["hello", "hi", "hey", "greetings"].map String.data

def statusKws : List (List Char) := ["status", "how", "what", "condition", "state"].map String.data

def powerKws : List (List Char) := ["power", "electricity", "watt", "consumption", "generation"].map String.data

def batteryKws : List (List Char) := ["battery", "capacity", "charge", "energy", "storage"].map String.data

def waterKws : List (List Char) := ["water", "reserve", "level", "tank"].map String.data

def maintenanceKws : List (List Char) := ["maintenance", "service", "check", "inspect"].map String.data

/-- `word in message_lower`: substring containment, Python's `in` on strings. -/
def containsSub (w m : List Char) : Bool := decide (w <:+: m)

/-- `any(word in message_lower for word in kws)`: substring containment of some keyword. -/
def kwMatch (kws : List (List Char)) (m : List Char) : Bool :=
  kws.any (fun w => containsSub w m)

/-- `StatefulController.analyze_message` (main.py lines 97-129): lower-case and
strip the message, then test the keyword sets in a fixed priority order,
returning the first matching intent with its fixed confidence. -/
def analyze_message (message : String) : Intent × ℚ :=
  let message_lower := pyStrip (pyLower message.data)
  if kwMatch greetingKws message_lower then (.greeting, 0.9)
  else if kwMatch statusKws message_lower then (.status, 0.8)
  else if kwMatch powerKws message_lower then (.power, 0.85)
  else if kwMatch batteryKws message_lower then (.battery, 0.9)
  else if kwMatch waterKws message_lower then (.water, 0.7)
  else if kwMatch maintenanceKws message_lower then (.maintenance, 0.8)
  else (.unknown, 0.3)

/-- `random.choice` over a three-element pattern list, the random draw modelled
as the explicitly passed index `pick`. -/
def choose3 (pick : ℕ) (a b c : String) : String :=
  match pick % 3 with
  | 0 => a
  | 1 => b
  | _ => c

/-- The three `power` templates after `.format` of the truncated telemetry values. -/
def powerResponse (pick : ℕ) (st : HudState) : String :=
  choose3 pick
    ("Power consumption is currently at " ++ toString (pyInt st.load_w) ++ "W with " ++
      toString (pyInt st.sun_w) ++ "W solar generation.")
    ("Your power grid shows " ++ toString (pyInt st.load_w) ++ "W load against " ++
      toString (pyInt st.sun_w) ++ "W solar input.")
    ("Power status: " ++ toString (pyInt st.battery_pct) ++ "% battery, " ++
      toString (pyInt st.load_w) ++ "W consumption, " ++ toString (pyInt st.sun_w) ++
      "W generation.")

/-- The three `battery` templates after `.format` of the truncated battery percentage. -/
def batteryResponse (pick : ℕ) (st : HudState) : String :=
  choose3 pick
    ("Battery capacity is at " ++ toString (pyInt st.battery_pct) ++ "%.")
    ("Your energy storage shows " ++ toString (pyInt st.battery_pct) ++ "% remaining.")
    ("Battery status: " ++ toString (pyInt st.battery_pct) ++ "% capacity available.")

/-- `StatefulController.generate_response` (main.py lines 131-163).  `st` is the
global `STATE` read by the power/battery templates, `daysSince` the value
`(datetime.now() - self.system_status["last_maintenance"]).days`, and `pick`
the modelled random draw. -/
def generate_response (pick : ℕ) (st : HudState) (daysSince : ℤ) (_message : String)
    (intent : Intent) : String :=
  match intent with
  | .greeting =>
      choose3 pick
        "Greetings, human. How may I assist you today?"
        "Hello there. What would you like to know about your systems?"
        "ASTRID online and ready. What\x27s your query?"
  | .status =>
      choose3 pick
        "Current system status: All systems operational."
        "Status check complete. Everything is running within normal parameters."
        "Systems are functioning at optimal levels."
  | .power => powerResponse pick st
  | .battery => batteryResponse pick st
  | .water =>
      "I don\x27t have access to water system sensors at the moment. My current monitoring is limited to power systems."
  | .maintenance =>
      if daysSince > 30 then
        "System maintenance is overdue by " ++ toString (daysSince - 30) ++
          " days. Recommend scheduling a service check."
      else
        "Last maintenance was " ++ toString daysSince ++
          " days ago. Next scheduled maintenance in " ++ toString (30 - daysSince) ++ " days."
  | .unknown =>
      choose3 pick
        "I\x27m not sure I understand that query. Could you rephrase?"
        "That\x27s outside my current knowledge base. Try asking about power, battery, or system status."
        "I need more context to help you with that request."

/-- `StatefulController.add_to_history` (main.py lines 88-95): append the new
exchange, then pop the oldest entry when the history exceeds 20. -/
def add_to_history (hist : List ConversationEntry) (e : ConversationEntry) :
    List ConversationEntry :=
  if (hist ++ [e]).length > 20 then (hist ++ [e]).tail else hist ++ [e]

/-- `StatefulController.process_message` (main.py lines 165-177): analyze,
generate a response, record the exchange, return the response.  `now` models
the timestamp `datetime.now()` taken by `add_to_history`. -/
def process_message (st : HudState) (daysSince : ℤ) (pick : ℕ)
    (hist : List ConversationEntry) (now : ℕ) (message : String) :
    String × List ConversationEntry :=
  let intent := (analyze_message message).1
  let response := generate_response pick st daysSince message intent
  (response, add_to_history hist ⟨now, message, response⟩)

/-- The wire events the server sends (main.py lines 208, 247, 249, 257, 297, 309). -/
inductive Event where
  | state (data : HudState)
  | user_line (text : String)
  | clear_center
  | bot_reply (text : String)
  deriving DecidableEq, Repr

/-- One step of the websocket handler body: a `manager.broadcast(...)` call or
the `asyncio.sleep` pause, in program order. -/
inductive Action where
  | bcast (ev : Event)
  | sleep (seconds : ℚ)
  deriving DecidableEq, Repr

/-- The events broadcast by a sequence of handler actions, in order. -/
def broadcastsOf (acts : List Action) : List Event :=
  acts.filterMap (fun a => match a with | .bcast ev => some ev | .sleep _ => none)

/-- `ConnectionManager.broadcast` (main.py lines 197-205): walk the registry in
order, attempt each send, keep the channels whose send succeeded and record
their deliveries; `ok c` models whether `ws.send_json` succeeds on channel `c`.
Returns the new registry (`living`) and the deliveries made, in call order. -/
def broadcast {C : Type} (ok : C → Bool) (ev : Event) :
    List C → List C × List (C × Event)
  | [] => ([], [])
  | ws :: rest =>
      let r := broadcast ok ev rest
      if ok ws then (ws :: r.1, (ws, ev) :: r.2) else r

/-- Run a sequence of broadcasts against a registry, threading the pruned
registry through and concatenating the deliveries; `ok ev c` models whether the
send of `ev` to channel `c` succeeds. -/
def deliverEvents {C : Type} (ok : Event → C → Bool) (active : List C) :
    List Event → List C × List (C × Event)
  | [] => (active, [])
  | ev :: rest =>
      ((deliverEvents ok (broadcast (ok ev) ev active).1 rest).1,
        (broadcast (ok ev) ev active).2 ++
          (deliverEvents ok (broadcast (ok ev) ev active).1 rest).2)

/-- The events a given channel received, in delivery order. -/
def received {C : Type} [DecidableEq C] (c : C) (dels : List (C × Event)) : List Event :=
  (dels.filter (fun p => decide (p.1 = c))).map Prod.snd

/-- The `StateUpdate` pydantic model (main.py lines 274-284): every updatable
field optional; `none` models a field absent from the request. -/
structure StateUpdate where
  headline : Option String := none
  eve : Option String := none
  battery_pct : Option ℚ := none
  load_w : Option ℚ := none
  sun_w : Option ℚ := none
  load_min_w : Option ℚ := none
  load_max_w : Option ℚ := none
  sun_min_w : Option ℚ := none
  sun_max_w : Option ℚ := none
  last_user_line : Option String := none
  deriving DecidableEq, Repr

/-- `update_state` (main.py lines 292-298): set each field present in
`update.dict(exclude_unset=True)` on the shared state, then broadcast the full
state snapshot.  Returns the new state and the broadcast event. -/
def update_state (st : HudState) (u : StateUpdate) : HudState × Event :=
  let st' : HudState :=
    { headline := u.headline.getD st.headline
      eve := u.eve.getD st.eve
      battery_pct := u.battery_pct.getD st.battery_pct
      load_w := u.load_w.getD st.load_w
      sun_w := u.sun_w.getD st.sun_w
      load_min_w := u.load_min_w.getD st.load_min_w
      load_max_w := u.load_max_w.getD st.load_max_w
      sun_min_w := u.sun_min_w.getD st.sun_min_w
      sun_max_w := u.sun_max_w.getD st.sun_max_w
      last_user_line := u.last_user_line.getD st.last_user_line
      bot_reply_pending := st.bot_reply_pending }
  (st', .state st')

/-- `bot_reply` (main.py lines 305-311): set `bot_reply_pending` to the payload
text, broadcast a `bot_reply` event carrying the pending text, then clear the
pending field.  Returns the final state and the events broadcast. -/
def bot_reply (st : HudState) (text : String) : HudState × List Event :=
  let st1 : HudState := { st with bot_reply_pending := some text }
  let evs := [Event.bot_reply (st1.bot_reply_pending.getD "")]
  let st2 : HudState := { st1 with bot_reply_pending := none }
  (st2, evs)

/-- The `user_message` branch of `websocket_endpoint` (main.py lines 241-257):
strip the text; if non-empty, set `last_user_line`, broadcast `user_line` and
`clear_center`, run the controller, sleep 1.5 seconds, broadcast the reply.
Returns the new state, the new history, and the actions in program order. -/
def handle_user_message (st : HudState) (daysSince : ℤ) (pick : ℕ)
    (hist : List ConversationEntry) (now : ℕ) (rawText : String) :
    HudState × List ConversationEntry × List Action :=
  let user_text : String := ⟨pyStrip rawText.data⟩
  if user_text.data = [] then (st, hist, [])
  else
    let st' : HudState := { st with last_user_line := user_text }
    let pm := process_message st' daysSince pick hist now user_text
    (st', pm.2,
      [.bcast (.user_line st'.last_user_line), .bcast .clear_center,
        .sleep 1.5, .bcast (.bot_reply pm.1)])

/-- The events broadcast while handling one inbound `user_message`. -/
def dispatchedEvents (st : HudState) (daysSince : ℤ) (pick : ℕ)
    (hist : List ConversationEntry) (now : ℕ) (rawText : String) : List Event :=
  broadcastsOf (handle_user_message st daysSince pick hist now rawText).2.2

/-! ## Theorems -/

/-- C1: the claim quantifies over every message containing a status keyword and
a power keyword, but `analyze_message` tests the greeting keywords first, so a
message that also contains a greeting keyword (here the literal word "hello")
classifies as greeting, not status. -/
theorem analyze_status_power_cex :
    kwMatch statusKws (pyStrip (pyLower ("hello how much power").data)) = true ∧
    kwMatch powerKws (pyStrip (pyLower ("hello how much power").data)) = true ∧
    (analyze_message "hello how much power").1 ≠ .status :=
  ⟨by decide, by decide, by decide⟩

/-- C1 (amended): for every message whose lowered, stripped text contains a
status keyword and a power keyword and no greeting keyword, `analyze_message`
returns the status intent (with confidence 0.8). -/
theorem analyze_status_power (m : String)
    (hg : kwMatch greetingKws (pyStrip (pyLower m.data)) = false)
    (hs : kwMatch statusKws (pyStrip (pyLower m.data)) = true)
    (hp : kwMatch powerKws (pyStrip (pyLower m.data)) = true) :
    analyze_message m = (.status, 0.8) := by
  have := hp
  simp [analyze_message, hg, hs]

/-- C1 witness: "status power consumption" contains a status and a power keyword
and no greeting keyword, and classifies as status. -/
theorem analyze_status_power_witness :
    kwMatch greetingKws (pyStrip (pyLower ("status power consumption").data)) = false ∧
    kwMatch statusKws (pyStrip (pyLower ("status power consumption").data)) = true ∧
    kwMatch powerKws (pyStrip (pyLower ("status power consumption").data)) = true ∧
    analyze_message "status power consumption" = (.status, 0.8) :=
  ⟨by decide, by decide, by decide,
    analyze_status_power "status power consumption" (by decide) (by decide) (by decide)⟩

/-- C2: `analyze_message` pairs each intent with its fixed confidence constant
(greeting 0.9, status 0.8, power 0.85, battery 0.9, water 0.7, maintenance 0.8),
returns unknown with 0.3 when no keyword set matches, classifies "hello" as
greeting with 0.9 and "what is my battery level" as status with 0.8. -/
theorem analyze_message_confidences :
    (∀ m : String,
      ((analyze_message m).1 = .greeting → (analyze_message m).2 = 0.9) ∧
      ((analyze_message m).1 = .status → (analyze_message m).2 = 0.8) ∧
      ((analyze_message m).1 = .power → (analyze_message m).2 = 0.85) ∧
      ((analyze_message m).1 = .battery → (analyze_message m).2 = 0.9) ∧
      ((analyze_message m).1 = .water → (analyze_message m).2 = 0.7) ∧
      ((analyze_message m).1 = .maintenance → (analyze_message m).2 = 0.8) ∧
      ((analyze_message m).1 = .unknown → (analyze_message m).2 = 0.3) ∧
      (kwMatch greetingKws (pyStrip (pyLower m.data)) = false →
        kwMatch statusKws (pyStrip (pyLower m.data)) = false →
        kwMatch powerKws (pyStrip (pyLower m.data)) = false →
        kwMatch batteryKws (pyStrip (pyLower m.data)) = false →
        kwMatch waterKws (pyStrip (pyLower m.data)) = false →
        kwMatch maintenanceKws (pyStrip (pyLower m.data)) = false →
        analyze_message m = (.unknown, 0.3))) ∧
    analyze_message "hello" = (.greeting, 0.9) ∧
    analyze_message "what is my battery level" = (.status, 0.8) := by
  refine ⟨fun m => ?_, rfl, rfl⟩
  simp only [analyze_message]
  split_ifs <;> simp_all

/-- C2 witness: the greeting clause applied to "hello" and the unknown clause
applied to the keyword-free message "zzz". -/
theorem analyze_message_confidences_witness :
    (analyze_message "hello").2 = 0.9 ∧ analyze_message "zzz" = (.unknown, 0.3) :=
  ⟨(analyze_message_confidences.1 "hello").1 (by decide),
    (analyze_message_confidences.1 "zzz").2.2.2.2.2.2.2
      (by decide) (by decide) (by decide) (by decide) (by decide) (by decide)⟩

/-- C9: the claim's example is wrong: "hi" is not a substring of "switch", and
"switch the mode" contains no keyword at all, so it classifies as unknown with
confidence 0.3, not as greeting. -/
theorem substring_matching_cex :
    containsSub "hi".data "switch".data = false ∧
    (analyze_message "switch the mode").1 ≠ .greeting ∧
    analyze_message "switch the mode" = (.unknown, 0.3) :=
  ⟨by decide, by decide, rfl⟩

/-- C9 (amended): keyword matching is substring containment, not whole-word
membership: "this is the mode" contains no greeting keyword as a standalone
word, yet "hi" occurs inside "this", so it classifies as greeting with
confidence 0.9. -/
theorem substring_matching :
    ((["this", "is", "the", "mode"].all
      (fun w => !(greetingKws.contains w.data))) = true) ∧
    containsSub "hi".data "this".data = true ∧
    analyze_message "this is the mode" = (.greeting, 0.9) :=
  ⟨by decide, by decide, rfl⟩

/-- C6: the claim quotes the replies as "last maintenance was 7 days ago, next
in 23 days" and "overdue by 5 days", but the code produces different sentences
at those inputs. -/
theorem maintenance_reply_cex :
    generate_response 0 default 7 "maintenance" .maintenance ≠
      "last maintenance was 7 days ago, next in 23 days" ∧
    generate_response 0 default 35 "maintenance" .maintenance ≠
      "overdue by 5 days" :=
  ⟨by decide, by decide⟩

/-- C6 (amended): for a maintenance-intent reply with `days_since` as computed
from the last maintenance date, if `days_since > 30` the reply is "System
maintenance is overdue by (days_since - 30) days. Recommend scheduling a
service check.", otherwise it is "Last maintenance was (days_since) days ago.
Next scheduled maintenance in (30 - days_since) days."; at 7 days it is the
former with 7 and 23, at 35 days the latter with 5. -/
theorem maintenance_reply (pick : ℕ) (st : HudState) (m : String) (d : ℤ) :
    (d > 30 → generate_response pick st d m .maintenance =
      "System maintenance is overdue by " ++ toString (d - 30) ++
        " days. Recommend scheduling a service check.") ∧
    (d ≤ 30 → generate_response pick st d m .maintenance =
      "Last maintenance was " ++ toString d ++
        " days ago. Next scheduled maintenance in " ++ toString (30 - d) ++ " days.") ∧
    (d = 7 → generate_response pick st d m .maintenance =
      "Last maintenance was 7 days ago. Next scheduled maintenance in 23 days.") ∧
    (d = 35 → generate_response pick st d m .maintenance =
      "System maintenance is overdue by 5 days. Recommend scheduling a service check.") := by
  refine ⟨fun h => ?_, fun h => ?_, fun h => ?_, fun h => ?_⟩
  · simp [generate_response, h]
  · simp [generate_response, show ¬(30 : ℤ) < d from not_lt.mpr h]
  · subst h; rfl
  · subst h; rfl

/-- C6 witness: the two concrete days-since values from the claim, 7 and 35. -/
theorem maintenance_reply_witness :
    generate_response 0 default 7 "maintenance" .maintenance =
      "Last maintenance was 7 days ago. Next scheduled maintenance in 23 days." ∧
    generate_response 0 default 35 "maintenance" .maintenance =
      "System maintenance is overdue by 5 days. Recommend scheduling a service check." :=
  ⟨(maintenance_reply 0 default "maintenance" 7).2.2.1 rfl,
    (maintenance_reply 0 default "maintenance" 35).2.2.2 rfl⟩

/-- Running `add_to_history` over any sequence of entries from the empty log
keeps exactly the last 20 of them. -/
theorem foldl_add_to_history_eq (es : List ConversationEntry) :
    List.foldl add_to_history [] es = es.drop (es.length - 20) := by
  induction es using List.reverseRecOn with
  | nil => rfl
  | append_singleton es e ih =>
      rw [List.foldl_append, List.foldl_cons, List.foldl_nil, ih]
      rcases Nat.lt_or_ge es.length 20 with h | h
      · have h0 : es.length - 20 = 0 := by omega
        have h1 : (es ++ [e]).length - 20 = 0 := by
          simp only [List.length_append, List.length_singleton]; omega
        have h2 : ¬(es ++ [e]).length > 20 := by
          simp only [List.length_append, List.length_singleton]; omega
        rw [h0, List.drop_zero, add_to_history, if_neg h2, h1, List.drop_zero]
      · have hl : (es.drop (es.length - 20)).length = 20 := by
          simp only [List.length_drop]; omega
        have hgt : (es.drop (es.length - 20) ++ [e]).length > 20 := by
          simp only [List.length_append, List.length_singleton, hl]; omega
        rw [add_to_history, if_pos hgt, ← List.drop_one,
          List.drop_append_of_le_length (by omega), List.drop_drop,
          List.drop_append_of_le_length
            (by simp only [List.length_append, List.length_singleton]; omega)]
        have : es.length - 20 + 1 = (es ++ [e]).length - 20 := by
          simp only [List.length_append, List.length_singleton]; omega
        rw [this]

/-- C3: starting from an empty log, any sequence of `add_to_history` calls
leaves at most 20 entries, namely the most recent 20 in order (FIFO eviction);
in particular after 21 appends the log is the tail of the appended sequence, so
the 1st appended entry is gone (when not re-appended later) and the 21st (the
last) is present. -/
theorem conversation_log_capped (es : List ConversationEntry) :
    (List.foldl add_to_history [] es).length ≤ 20 ∧
    List.foldl add_to_history [] es = es.drop (es.length - 20) ∧
    (∀ e rest, es = e :: rest → es.length = 21 →
      List.foldl add_to_history [] es = rest ∧
      (e ∉ rest → e ∉ List.foldl add_to_history [] es) ∧
      (∀ l, rest.getLast? = some l → l ∈ List.foldl add_to_history [] es)) := by
  have key := foldl_add_to_history_eq es
  refine ⟨?_, key, ?_⟩
  · rw [key]; simp only [List.length_drop]; omega
  · intro e rest hesc hlen
    have h1 : es.length - 20 = 1 := by omega
    have htail : List.foldl add_to_history [] es = rest := by
      rw [key, h1, hesc, List.drop_succ_cons, List.drop_zero]
    exact ⟨htail, fun hne hmem => hne (htail ▸ hmem),
      fun l hl => htail ▸ List.mem_of_getLast?_eq_some hl⟩

/-- C3 witness: appending the 21 distinct entries with timestamps 0..20 leaves
a log without the first entry and with the 21st. -/
theorem conversation_log_capped_witness :
    (⟨0, "u", "b"⟩ : ConversationEntry) ∉
      List.foldl add_to_history [] ((List.range 21).map (fun i => ⟨i, "u", "b"⟩)) ∧
    (⟨20, "u", "b"⟩ : ConversationEntry) ∈
      List.foldl add_to_history [] ((List.range 21).map (fun i => ⟨i, "u", "b"⟩)) := by
  have h := (conversation_log_capped ((List.range 21).map (fun i => ⟨i, "u", "b"⟩))).2.2
    ⟨0, "u", "b"⟩ ((List.range' 1 20).map (fun i => ⟨i, "u", "b"⟩)) (by decide) (by decide)
  exact ⟨h.2.1 (by decide), h.2.2 ⟨20, "u", "b"⟩ (by decide)⟩

/-- The broadcast loop keeps exactly the channels whose send succeeded, in
registration order, and delivers the event to exactly those channels. -/
theorem broadcast_eq {C : Type} (ok : C → Bool) (ev : Event) (active : List C) :
    broadcast ok ev active =
      (active.filter ok, (active.filter ok).map (fun c => (c, ev))) := by
  induction active with
  | nil => rfl
  | cons a t ih =>
      rw [broadcast, ih]
      by_cases h : ok a <;> simp [List.filter_cons, h]

/-- C4: `broadcast` walks the registry in registration order; the new registry
is exactly the channels whose send succeeded (an order-preserving sublist), a
channel whose send fails is removed, a channel whose send succeeds stays
registered and has received the event, and the function is total (no error
reaches the caller). -/
theorem broadcast_prunes_failures {C : Type} (ok : C → Bool) (ev : Event)
    (active : List C) :
    (broadcast ok ev active).1 = active.filter ok ∧
    (broadcast ok ev active).2 = (active.filter ok).map (fun c => (c, ev)) ∧
    (∀ c, ok c = false → c ∉ (broadcast ok ev active).1) ∧
    (∀ c, c ∈ active → ok c = true →
      c ∈ (broadcast ok ev active).1 ∧ (c, ev) ∈ (broadcast ok ev active).2) ∧
    (broadcast ok ev active).1.Sublist active := by
  have h := broadcast_eq ok ev active
  rw [h]
  refine ⟨rfl, rfl, ?_, ?_, List.filter_sublist active⟩
  · intro c hc hmem
    exact absurd ((List.mem_filter.mp hmem).2) (by simp [hc])
  · intro c hc hok
    exact ⟨List.mem_filter.mpr ⟨hc, hok⟩,
      List.mem_map.mpr ⟨c, List.mem_filter.mpr ⟨hc, hok⟩, rfl⟩⟩

/-- C4 witness: three registered channels 1, 2, 3 where the send to channel 2
fails: channel 2 is dropped, channels 1 and 3 stay registered and receive the
event in call order. -/
theorem broadcast_prunes_failures_witness :
    (2 : ℕ) ∉ (broadcast (fun c => decide (c ≠ 2)) .clear_center [1, 2, 3]).1 ∧
    (1, Event.clear_center) ∈
      (broadcast (fun c => decide (c ≠ 2)) .clear_center [1, 2, 3]).2 ∧
    (3, Event.clear_center) ∈
      (broadcast (fun c => decide (c ≠ 2)) .clear_center [1, 2, 3]).2 ∧
    broadcast (fun c => decide (c ≠ 2)) Event.clear_center [1, 2, 3] =
      ([1, 3], [(1, .clear_center), (3, .clear_center)]) := by
  have h := broadcast_prunes_failures (fun c : ℕ => decide (c ≠ 2)) .clear_center [1, 2, 3]
  exact ⟨h.2.2.1 2 (by decide), (h.2.2.2.1 1 (by decide) (by decide)).2,
    (h.2.2.2.1 3 (by decide) (by decide)).2, by decide⟩

/-- C5: `update_state` leaves every field absent from the partial update at its
prior value, sets every present field to the supplied value, never touches
`bot_reply_pending`, and broadcasts the resulting full state snapshot. -/
theorem update_state_frame (st : HudState) (u : StateUpdate) :
    (u.headline = none → (update_state st u).1.headline = st.headline) ∧
    (∀ v, u.headline = some v → (update_state st u).1.headline = v) ∧
    (u.eve = none → (update_state st u).1.eve = st.eve) ∧
    (∀ v, u.eve = some v → (update_state st u).1.eve = v) ∧
    (u.battery_pct = none → (update_state st u).1.battery_pct = st.battery_pct) ∧
    (∀ v, u.battery_pct = some v → (update_state st u).1.battery_pct = v) ∧
    (u.load_w = none → (update_state st u).1.load_w = st.load_w) ∧
    (∀ v, u.load_w = some v → (update_state st u).1.load_w = v) ∧
    (u.sun_w = none → (update_state st u).1.sun_w = st.sun_w) ∧
    (∀ v, u.sun_w = some v → (update_state st u).1.sun_w = v) ∧
    (u.load_min_w = none → (update_state st u).1.load_min_w = st.load_min_w) ∧
    (∀ v, u.load_min_w = some v → (update_state st u).1.load_min_w = v) ∧
    (u.load_max_w = none → (update_state st u).1.load_max_w = st.load_max_w) ∧
    (∀ v, u.load_max_w = some v → (update_state st u).1.load_max_w = v) ∧
    (u.sun_min_w = none → (update_state st u).1.sun_min_w = st.sun_min_w) ∧
    (∀ v, u.sun_min_w = some v → (update_state st u).1.sun_min_w = v) ∧
    (u.sun_max_w = none → (update_state st u).1.sun_max_w = st.sun_max_w) ∧
    (∀ v, u.sun_max_w = some v → (update_state st u).1.sun_max_w = v) ∧
    (u.last_user_line = none → (update_state st u).1.last_user_line = st.last_user_line) ∧
    (∀ v, u.last_user_line = some v → (update_state st u).1.last_user_line = v) ∧
    (update_state st u).1.bot_reply_pending = st.bot_reply_pending ∧
    (update_state st u).2 = .state (update_state st u).1 := by
  refine ⟨?_, ?_, ?_, ?_, ?_, ?_, ?_, ?_, ?_, ?_, ?_, ?_, ?_, ?_, ?_, ?_, ?_, ?_,
    ?_, ?_, ?_, ?_⟩ <;>
    first
      | (intro v h; simp [update_state, h])
      | (intro h; simp [update_state, h])
      | simp [update_state]

/-- C5 witness: updating only `battery_pct` on the default state leaves
`headline` unchanged and sets `battery_pct` to the supplied value. -/
theorem update_state_frame_witness :
    (update_state {} { battery_pct := some 50 }).1.headline = ({} : HudState).headline ∧
    (update_state {} { battery_pct := some 50 }).1.battery_pct = 50 :=
  ⟨(update_state_frame {} { battery_pct := some 50 }).1 rfl,
    (update_state_frame {} { battery_pct := some 50 }).2.2.2.2.2.1 50 rfl⟩

/-- C7: the direct bot-reply injection broadcasts exactly one `bot_reply` event
carrying the injected text (read back from the just-set `bot_reply_pending`),
and afterwards `bot_reply_pending` is `none` and every other field of the state
is unchanged. -/
theorem bot_reply_transient (st : HudState) (t : String) :
    (bot_reply st t).2 = [.bot_reply t] ∧
    (bot_reply st t).1.bot_reply_pending = none ∧
    (bot_reply st t).1.headline = st.headline ∧
    (bot_reply st t).1.eve = st.eve ∧
    (bot_reply st t).1.battery_pct = st.battery_pct ∧
    (bot_reply st t).1.load_w = st.load_w ∧
    (bot_reply st t).1.sun_w = st.sun_w ∧
    (bot_reply st t).1.load_min_w = st.load_min_w ∧
    (bot_reply st t).1.load_max_w = st.load_max_w ∧
    (bot_reply st t).1.sun_min_w = st.sun_min_w ∧
    (bot_reply st t).1.sun_max_w = st.sun_max_w ∧
    (bot_reply st t).1.last_user_line = st.last_user_line := by
  refine ⟨?_, ?_, ?_, ?_, ?_, ?_, ?_, ?_, ?_, ?_, ?_, ?_⟩ <;> simp [bot_reply]

/-- Deliveries distribute over concatenation of delivery logs. -/
theorem received_append {C : Type} [DecidableEq C] (c : C)
    (d1 d2 : List (C × Event)) :
    received c (d1 ++ d2) = received c d1 ++ received c d2 := by
  simp [received, List.filter_append]

/-- A channel not among the recipients of one broadcast receives nothing from it. -/
theorem received_map_of_not_mem {C : Type} [DecidableEq C] {c : C} {l : List C}
    (h : c ∉ l) (ev : Event) :
    received c (l.map (fun x => (x, ev))) = [] := by
  induction l with
  | nil => rfl
  | cons a t ih =>
      have hac : ¬(a = c) := fun hh => h (hh ▸ List.mem_cons_self a t)
      simp only [List.map_cons, received, List.filter_cons, decide_eq_true_eq]
      rw [if_neg (by simpa using hac)]
      exact ih (fun hc => h (List.mem_cons_of_mem a hc))

/-- A channel listed once among the recipients of one broadcast receives the
event exactly once. -/
theorem received_map_of_nodup {C : Type} [DecidableEq C] {c : C} {l : List C}
    (hn : l.Nodup) (hc : c ∈ l) (ev : Event) :
    received c (l.map (fun x => (x, ev))) = [ev] := by
  induction l with
  | nil => cases hc
  | cons a t ih =>
      by_cases hac : a = c
      · subst hac
        have hat : a ∉ t := (List.nodup_cons.mp hn).1
        have hrest := received_map_of_not_mem hat ev
        simp only [received] at hrest
        simp [received, List.filter_cons, hrest]
      · have hct : c ∈ t := by
          rcases List.mem_cons.mp hc with h | h
          · exact absurd h.symm hac
          · exact h
        simp only [List.map_cons, received, List.filter_cons, decide_eq_true_eq]
        rw [if_neg (by simpa using hac)]
        exact ih (List.nodup_cons.mp hn).2 hct

/-- A channel in a duplicate-free registry whose sends all succeed survives the
whole broadcast sequence and receives exactly the broadcast events, in order. -/
theorem deliverEvents_received {C : Type} [DecidableEq C] (ok : Event → C → Bool)
    (es : List Event) : ∀ (active : List C) (c : C), active.Nodup → c ∈ active →
    (∀ ev ∈ es, ok ev c = true) →
    c ∈ (deliverEvents ok active es).1 ∧
    received c (deliverEvents ok active es).2 = es := by
  induction es with
  | nil => exact fun active c _ hc _ => ⟨hc, rfl⟩
  | cons ev rest ih =>
      intro active c hn hc hok
      have hb := broadcast_eq (ok ev) ev active
      have hcf : c ∈ active.filter (ok ev) :=
        List.mem_filter.mpr ⟨hc, hok ev (List.mem_cons_self ev rest)⟩
      have hnf : (active.filter (ok ev)).Nodup := hn.filter _
      have ih' := ih (active.filter (ok ev)) c hnf hcf
        (fun e he => hok e (List.mem_cons_of_mem ev he))
      constructor
      · show c ∈ (deliverEvents ok (broadcast (ok ev) ev active).1 rest).1
        rw [hb]
        exact ih'.1
      · show received c ((broadcast (ok ev) ev active).2 ++
          (deliverEvents ok (broadcast (ok ev) ev active).1 rest).2) = ev :: rest
        rw [hb, received_append, received_map_of_nodup hnf hcf, ih'.2]
        rfl

/-- C8: handling a `user_message` whose stripped text is non-empty issues the
actions: broadcast `user_line` with the new text, broadcast `clear_center`,
sleep 1.5, broadcast `bot_reply` with the generated reply — so exactly three
broadcasts in that order, the delay strictly before the last; and any channel
of a duplicate-free registry whose sends all succeed stays registered and
receives exactly those three events in that order. -/
theorem dispatcher_event_order (st : HudState) (daysSince : ℤ) (pick : ℕ)
    (hist : List ConversationEntry) (now : ℕ) (rawText : String)
    (hne : pyStrip rawText.data ≠ []) :
    (handle_user_message st daysSince pick hist now rawText).2.2 =
      [.bcast (.user_line (⟨pyStrip rawText.data⟩ : String)), .bcast .clear_center,
        .sleep 1.5,
        .bcast (.bot_reply (process_message
          { st with last_user_line := (⟨pyStrip rawText.data⟩ : String) }
          daysSince pick hist now (⟨pyStrip rawText.data⟩ : String)).1)] ∧
    dispatchedEvents st daysSince pick hist now rawText =
      [.user_line (⟨pyStrip rawText.data⟩ : String), .clear_center,
        .bot_reply (process_message
          { st with last_user_line := (⟨pyStrip rawText.data⟩ : String) }
          daysSince pick hist now (⟨pyStrip rawText.data⟩ : String)).1] ∧
    (∀ (ok : Event → ℕ → Bool) (active : List ℕ) (c : ℕ), active.Nodup →
      c ∈ active →
      (∀ ev ∈ dispatchedEvents st daysSince pick hist now rawText, ok ev c = true) →
      c ∈ (deliverEvents ok active
        (dispatchedEvents st daysSince pick hist now rawText)).1 ∧
      received c (deliverEvents ok active
        (dispatchedEvents st daysSince pick hist now rawText)).2 =
        dispatchedEvents st daysSince pick hist now rawText) := by
  have hacts : (handle_user_message st daysSince pick hist now rawText).2.2 =
      [.bcast (.user_line (⟨pyStrip rawText.data⟩ : String)), .bcast .clear_center,
        .sleep 1.5,
        .bcast (.bot_reply (process_message
          { st with last_user_line := (⟨pyStrip rawText.data⟩ : String) }
          daysSince pick hist now (⟨pyStrip rawText.data⟩ : String)).1)] := by
    rw [handle_user_message, if_neg hne]
  refine ⟨hacts, ?_, ?_⟩
  · rw [dispatchedEvents, hacts]; rfl
  · intro ok active c hn hc hok
    exact deliverEvents_received ok _ active c hn hc hok

/-- C8 witness: one channel 0 whose sends always succeed, fed the message
"hello": it stays registered and receives the three events in order. -/
theorem dispatcher_event_order_witness :
    0 ∈ (deliverEvents (fun _ _ => true) [0]
      (dispatchedEvents default 7 0 [] 0 "hello")).1 ∧
    received 0 (deliverEvents (fun _ _ => true) [0]
      (dispatchedEvents default 7 0 [] 0 "hello")).2 =
      dispatchedEvents default 7 0 [] 0 "hello" :=
  (dispatcher_event_order default 7 0 [] 0 "hello" (by decide)).2.2
    (fun _ _ => true) [0] 0 (by decide) (by decide) (fun _ _ => rfl)

/-- `add_to_history` always ends with the entry just added. -/
theorem add_to_history_getLast (hist : List ConversationEntry)
    (e : ConversationEntry) : (add_to_history hist e).getLast? = some e := by
  cases hist with
  | nil => rfl
  | cons a t =>
      rw [add_to_history]
      by_cases h : ((a :: t) ++ [e]).length > 20
      · rw [if_pos h]
        show (t ++ [e]).getLast? = some e
        exact List.getLast?_concat t
      · rw [if_neg h]
        exact List.getLast?_concat (a :: t)

/-- `add_to_history` grows the log by one entry until the 20-entry cap. -/
theorem add_to_history_length (hist : List ConversationEntry)
    (e : ConversationEntry) (hlen : hist.length ≤ 20) :
    (add_to_history hist e).length = min (hist.length + 1) 20 := by
  rw [add_to_history]
  by_cases h : (hist ++ [e]).length > 20
  · rw [if_pos h, List.length_tail, List.length_append]
    rw [List.length_append] at h
    simp only [List.length_singleton] at *
    omega
  · rw [if_neg h, List.length_append]
    rw [List.length_append] at h
    simp only [List.length_singleton] at *
    omega

/-- C10: `process_message` returns the generated reply and, as a side effect,
appends exactly one entry (timestamp, message, reply) at the end of the
conversation log through `add_to_history`, subject to the 20-entry cap. -/
theorem process_message_appends (st : HudState) (daysSince : ℤ) (pick : ℕ)
    (hist : List ConversationEntry) (now : ℕ) (message : String)
    (hlen : hist.length ≤ 20) :
    (process_message st daysSince pick hist now message).1 =
      generate_response pick st daysSince message (analyze_message message).1 ∧
    (process_message st daysSince pick hist now message).2 =
      add_to_history hist
        ⟨now, message, (process_message st daysSince pick hist now message).1⟩ ∧
    (process_message st daysSince pick hist now message).2.getLast? =
      some ⟨now, message, (process_message st daysSince pick hist now message).1⟩ ∧
    (process_message st daysSince pick hist now message).2.length =
      min (hist.length + 1) 20 :=
  ⟨rfl, rfl, add_to_history_getLast hist _, add_to_history_length hist _ hlen⟩

/-- C10 witness: processing "hello" against an empty log leaves a one-entry log
ending in the new exchange. -/
theorem process_message_appends_witness :
    (process_message default 7 0 [] 0 "hello").2.getLast? =
      some ⟨0, "hello", (process_message default 7 0 [] 0 "hello").1⟩ ∧
    (process_message default 7 0 [] 0 "hello").2.length = min (0 + 1) 20 :=
  ⟨(process_message_appends default 7 0 [] 0 "hello" (by decide)).2.2.1,
    (process_message_appends default 7 0 [] 0 "hello" (by decide)).2.2.2⟩

end Astrid
